import Mathlib

/-!
Verification of the dockge-with-deploy event-to-deployment pipeline.

The definitions below are shallow embeddings of the TypeScript sources:
  * backend/git/git-providers/github.ts      (GitHubProvider.verifySignature)
  * backend/git/git-providers/bitbucket.ts   (BitbucketProvider.parseWebhookPayload,
                                              WebhookHandler.processWebhook)
  * backend/git/build-engine.ts              (BuildEngine.queueBuild / processQueue /
                                              processBuild and friends)
  * backend/git/git-operations.ts            (GitOperations.getFileContent / listFiles)
  * backend/models/git-repository.ts         (GitRepository.save)
  * backend/utils/crypto.ts                  (encryptText / decryptText)

JavaScript strings are modelled by Lean String; header maps by association
lists with Option-valued lookup; JS truthiness of a string-valued expression
(undefined or the empty string are falsy) by jsTruthy.  Outcomes of external
calls (git, docker, the filesystem, the stack runtime, node crypto) are inputs
of the embedded functions, mirroring the spec treating them as collaborators.
-/

namespace DockgeSpec

/-- Truthiness of an optional JS string: undefined and the empty string are falsy. -/
def jsTruthy : Option String → Bool
  | none => false
  | some s => s ≠ ""

/-- Value of the JS expression given by a string lookup with a default,
written in the source as h[k] or fallback. -/
def jsOr (v : Option String) (d : String) : String :=
  match v with
  | none => d
  | some s => if s = "" then d else s

/-- HTTP headers as delivered by express: an association list of
lower-cased names to values. -/
def Headers := List (String × String)

/-- Header lookup, returning none when absent. -/
def getHeader (hs : Headers) (k : String) : Option String :=
  match hs.find? (fun p => p.1 = k) with
  | none => none
  | some p => some p.2

/-- Git provider kinds, from the provider enum in backend/models/git-repository.ts. -/
inductive GitProvider
  | github
  | gitlab
  | bitbucket
  | generic
deriving DecidableEq, Repr

/-- Auth kinds, from the GitAuthType enum in backend/models/git-repository.ts. -/
inductive GitAuthType
  | none
  | ssh_key
  | http_token
deriving DecidableEq, Repr

/-- Credentials object, from the GitCredentials interface: all fields optional. -/
structure GitCredentials where
  username : Option String := Option.none
  token : Option String := Option.none
  privateKey : Option String := Option.none
  passphrase : Option String := Option.none
deriving DecidableEq, Repr

/-- In-memory GitRepository model object (backend/models/git-repository.ts).
Only the fields the verified code paths read are carried. -/
structure GitRepository where
  id : Nat
  stackId : String
  url : String
  branch : String
  authType : GitAuthType
  credentials : Option GitCredentials
  webhookSecret : Option String
  provider : GitProvider
deriving DecidableEq, Repr

/-- Normalized webhook metadata, from the WebhookPayloadMetadata interface in
backend/git/git-providers/git-provider-handler.ts. -/
structure WebhookPayloadMetadata where
  eventType : String
  branch : Option String := Option.none
  commit : Option String := Option.none
  commitMessage : Option String := Option.none
  author : Option String := Option.none
  tag : Option String := Option.none
  verified : Bool
deriving DecidableEq, Repr

/-! ## Bitbucket provider (claim C8)

BitbucketProvider.parseWebhookPayload, bitbucket.ts lines 32-76.  The payload
shape read by the function (payload.push.changes with new.type, new.name and
new.target) is mirrored by the structures below. -/

/-- Target object of a Bitbucket push change (change.new.target). -/
structure BitbucketTarget where
  hash : Option String
  message : Option String
  authorDisplayName : Option String
deriving DecidableEq, Repr

/-- New-state object of a Bitbucket push change (change.new). -/
structure BitbucketChangeNew where
  type : String
  name : String
  target : Option BitbucketTarget
deriving DecidableEq, Repr

/-- One element of payload.push.changes; change.new may be absent. -/
structure BitbucketChange where
  changeNew : Option BitbucketChangeNew
deriving DecidableEq, Repr

/-- Bitbucket webhook payload: the push.changes array when present. -/
structure BitbucketPayload where
  pushChanges : Option (List BitbucketChange)
deriving DecidableEq, Repr

/-- Shallow embedding of BitbucketProvider.parseWebhookPayload
(bitbucket.ts lines 32-76).  Verification is granted exactly when both the
x-request-uuid and x-hook-uuid headers are truthy; the secret argument is
never consulted. -/
def bitbucketParseWebhookPayload (payload : BitbucketPayload) (headers : Headers)
    (secret : Option String) : WebhookPayloadMetadata :=
  let _ := secret
  let base : WebhookPayloadMetadata :=
    { eventType := jsOr (getHeader headers "x-event-key") "unknown"
      verified := false }
  let withVerify :=
    if jsTruthy (getHeader headers "x-request-uuid") ∧
        jsTruthy (getHeader headers "x-hook-uuid") then
      { base with verified := true }
    else base
  if withVerify.eventType = "repo:push" then
    match payload.pushChanges with
    | Option.none => withVerify
    | some [] => withVerify
    | some (change :: _) =>
      match change.changeNew with
      | Option.none => withVerify
      | some n =>
        if n.type = "branch" then
          match n.target with
          | Option.none => { withVerify with branch := some n.name }
          | some t =>
            { withVerify with
                branch := some n.name
                commit := t.hash
                commitMessage := t.message
                author := t.authorDisplayName }
        else if n.type = "tag" then
          { withVerify with tag := some n.name }
        else withVerify
  else withVerify

/-! ## Webhook ingestion (claims C7 and C3)

WebhookHandler.processWebhook, bitbucket.ts lines 282-351 of the concatenated
source (webhook-handler).  The provider adapter is abstracted as a function
from the configured secret to the normalized metadata, matching the call
providerHandler.parseWebhookPayload(payload, headers, repo.webhookSecret). -/

/-- Status values of a webhook event in the build engine, the BUILD_*
constants imported from common/util-common. -/
inductive EventStatus
  | requested
  | queued
  | inProgress
  | completed
  | failed
deriving DecidableEq, Repr

/-- Persisted webhook_events row as created by processWebhook. -/
structure WebhookEvent where
  repositoryId : Nat
  eventType : String
  branch : String
  commit : String
  status : EventStatus
  buildId : String
deriving DecidableEq, Repr

/-- Result of one processWebhook request: the HTTP status sent, the
webhook_events rows persisted by the request, and whether a build request
was handed to the build engine. -/
structure WebhookResponse where
  status : Nat
  savedEvents : List WebhookEvent
  buildTriggered : Bool
deriving DecidableEq, Repr

/-- Shallow embedding of WebhookHandler.processWebhook.  repoLookup is the
result of the git_repositories query for the route id; parse abstracts the
provider adapter, applied to the repository webhook secret; buildId stands
for the random id generated for the event. -/
def processWebhook (repoLookup : Option GitRepository) (routeProvider : GitProvider)
    (parse : Option String → WebhookPayloadMetadata) (buildId : String) :
    WebhookResponse :=
  match repoLookup with
  | Option.none => { status := 404, savedEvents := [], buildTriggered := false }
  | some repo =>
    if repo.provider ≠ routeProvider then
      { status := 400, savedEvents := [], buildTriggered := false }
    else
      let metadata := parse repo.webhookSecret
      if jsTruthy repo.webhookSecret ∧ metadata.verified = false then
        { status := 401, savedEvents := [], buildTriggered := false }
      else if jsTruthy metadata.branch ∧ jsOr metadata.branch "" ≠ repo.branch then
        { status := 200, savedEvents := [], buildTriggered := false }
      else
        let event : WebhookEvent :=
          { repositoryId := repo.id
            eventType := metadata.eventType
            branch := jsOr metadata.branch ""
            commit := jsOr metadata.commit ""
            status := EventStatus.requested
            buildId := buildId }
        { status := 200, savedEvents := [event], buildTriggered := true }

/-! ## Build engine (claims C1, C3, C6)

BuildEngine.processBuild and the error handling of BuildEngine.processQueue,
build-engine.ts lines 133-353.  Outcomes of the external calls made by
processBuild are collected in BuildEnv; the deployment rows it persists and
the compose texts handed to the stack runtime are returned explicitly. -/

/-- Deployment status values written by the build engine (the DEPLOYMENT_*
constants) together with the remaining states of the deployments table enum,
including rolled_back, which the engine never writes. -/
inductive DeploymentStatus
  | pending
  | inProgress
  | succeeded
  | failed
  | rolledBack
  | cancelled
deriving DecidableEq, Repr

/-- Persisted deployments row as the build engine leaves it. -/
structure Deployment where
  repositoryId : Nat
  status : DeploymentStatus
  logs : String
deriving DecidableEq, Repr

/-- Build configuration model (backend/models/build-config.ts), restricted to
the fields the engine reads plus the rollback and timeout settings of the
claims.  preBuildCommands and postBuildCommands are newline-separated command
strings; timeout is in seconds and rollbackOnFailure defaults to true. -/
structure BuildConfig where
  stackId : String
  buildType : String
  dockerfilePath : String
  composeFilePath : String
  timeout : Nat := 3600
  rollbackOnFailure : Bool := true
  preBuildCommands : String := ""
  postBuildCommands : String := ""
deriving DecidableEq, Repr

/-- Outcomes of the external calls processBuild makes, in program order.
Each field is the result the corresponding collaborator (database,
filesystem, git, docker, stack runtime) would return. -/
structure BuildEnv where
  repoLookup : Option GitRepository
  configLookup : Option BuildConfig
  repoDirExists : Bool
  pullOk : Bool
  cloneResult : Bool
  currentCommitBranch : Option String
  checkoutOk : Bool
  preBuildOk : Bool
  dockerfileExists : Bool
  dockerBuildOk : Bool
  postBuildOk : Bool
  composeFileContent : Option String
  stackDeployOk : Bool
deriving DecidableEq, Repr

/-- Result of one processBuild run: the deployment row it created (with the
status it last persisted), the error it threw if any, and the compose texts
passed to Stack.deploy, in order. -/
structure ProcessBuildResult where
  deployment : Deployment
  error : Option String
  deployedComposeTexts : List String
deriving DecidableEq, Repr

/-- Whitespace trimmed from both ends, the behaviour of
String.prototype.trim. -/
def strTrim (s : String) : String :=
  String.mk (((s.data.dropWhile Char.isWhitespace).reverse.dropWhile Char.isWhitespace).reverse)

/-- Truth of the guard on a newline-separated command list:
cmds and cmds.trim() both non-empty. -/
def hasCommands (cmds : String) : Bool :=
  cmds ≠ "" ∧ strTrim cmds ≠ ""

/-- Shallow embedding of BuildEngine.processBuild (build-engine.ts lines
181-353).  The deployment row is created up front with status in progress;
every phase that raises leaves that row as last persisted and returns the
error; the sync phase falls back from a failed pull to cloneRepository
because the try block around fs.access also catches the pull failure. -/
def processBuild (env : BuildEnv) (event : WebhookEvent) : ProcessBuildResult :=
  let d0 : Deployment :=
    { repositoryId := event.repositoryId, status := DeploymentStatus.inProgress, logs := "" }
  match env.repoLookup with
  | Option.none =>
    { deployment := d0
      error := some "Repository not found"
      deployedComposeTexts := [] }
  | some repo =>
    match env.configLookup with
    | Option.none =>
      { deployment := d0
        error := some "Build configuration not found"
        deployedComposeTexts := [] }
    | some buildConfig =>
      let syncOk : Bool :=
        if env.repoDirExists then env.pullOk ∨ env.cloneResult else env.cloneResult
      if ¬ syncOk then
        { deployment := d0, error := some "sync failed", deployedComposeTexts := [] }
      else
        let needCheckout : Bool :=
          match env.currentCommitBranch with
          | Option.none => true
          | some b => b ≠ repo.branch
        if needCheckout ∧ ¬ env.checkoutOk then
          { deployment := d0
            error := some ("Failed to check out branch " ++ repo.branch)
            deployedComposeTexts := [] }
        else if hasCommands buildConfig.preBuildCommands ∧ ¬ env.preBuildOk then
          { deployment := d0
            error := some "Pre-build command failed"
            deployedComposeTexts := [] }
        else if buildConfig.buildType = "docker-build" ∧ ¬ env.dockerfileExists then
          { deployment := d0
            error := some ("Dockerfile not found at " ++ buildConfig.dockerfilePath)
            deployedComposeTexts := [] }
        else if buildConfig.buildType = "docker-build" ∧ ¬ env.dockerBuildOk then
          { deployment := d0
            error := some "Docker build failed"
            deployedComposeTexts := [] }
        else if buildConfig.buildType ≠ "docker-build" ∧ buildConfig.buildType ≠ "compose-only" then
          { deployment := d0
            error := some ("Unsupported build type: " ++ buildConfig.buildType)
            deployedComposeTexts := [] }
        else if hasCommands buildConfig.postBuildCommands ∧ ¬ env.postBuildOk then
          { deployment := d0
            error := some "Post-build command failed"
            deployedComposeTexts := [] }
        else
          match env.composeFileContent with
          | Option.none =>
            { deployment := d0
              error := some ("Compose file not found at " ++ buildConfig.composeFilePath)
              deployedComposeTexts := [] }
          | some composeContent =>
            if ¬ env.stackDeployOk then
              { deployment := d0
                error := some "Deployment failed"
                deployedComposeTexts := [composeContent] }
            else
              { deployment := { d0 with status := DeploymentStatus.succeeded }
                error := Option.none
                deployedComposeTexts := [composeContent] }

/-- Result of one processQueue iteration for a dequeued event: all deployment
rows persisted, the final event status, and the compose texts handed to the
stack runtime. -/
structure QueueStepResult where
  deployments : List Deployment
  eventStatus : EventStatus
  deployedComposeTexts : List String
deriving DecidableEq, Repr

/-- Shallow embedding of the try/catch of BuildEngine.processQueue
(build-engine.ts lines 142-171): a successful processBuild leaves its single
row, a failed one leaves the in-progress row and a fresh failed row, and the
catch performs no further stack deployment. -/
def processQueueStep (env : BuildEnv) (event : WebhookEvent) : QueueStepResult :=
  let r := processBuild env event
  match r.error with
  | Option.none =>
    { deployments := [r.deployment]
      eventStatus := EventStatus.completed
      deployedComposeTexts := r.deployedComposeTexts }
  | some e =>
    { deployments :=
        [r.deployment,
         { repositoryId := event.repositoryId
           status := DeploymentStatus.failed
           logs := "Build failed: " ++ e }]
      eventStatus := EventStatus.failed
      deployedComposeTexts := r.deployedComposeTexts }

/-- Combined result of one webhook request followed by the processing of the
build it triggered, for counting persisted rows per accepted request. -/
structure PipelineResult where
  status : Nat
  webhookEventCount : Nat
  deployments : List Deployment
deriving DecidableEq, Repr

/-- End-to-end pipeline of one inbound webhook request: processWebhook, and
when a build request was enqueued, the processQueue iteration for it. -/
def webhookPipeline (repoLookup : Option GitRepository) (routeProvider : GitProvider)
    (parse : Option String → WebhookPayloadMetadata) (buildId : String)
    (env : BuildEnv) : PipelineResult :=
  let w := processWebhook repoLookup routeProvider parse buildId
  match w.savedEvents with
  | [event] =>
    if w.buildTriggered then
      let q := processQueueStep env event
      { status := w.status
        webhookEventCount := 1
        deployments := q.deployments }
    else
      { status := w.status, webhookEventCount := 1, deployments := [] }
  | _ =>
    { status := w.status
      webhookEventCount := w.savedEvents.length
      deployments := [] }

/-! ## GitHub signature verification (claim C2)

GitHubProvider.verifySignature, github.ts lines 89-107.  The HMAC-SHA256
primitive of node crypto is an external collaborator and is abstracted as a
function hmacHex from secret and message to the hex digest string.
crypto.timingSafeEqual throws on buffers of different length — caught by the
surrounding try, yielding false — and otherwise returns plain buffer
equality, so functionally the comparison is string equality guarded by a
length test. -/

/-- JS String.prototype.startsWith on the model strings. -/
def strStartsWith (s p : String) : Bool :=
  p.data.isPrefixOf s.data

/-- Shallow embedding of GitHubProvider.verifySignature.  payload is the
request body string (the typeof check of the source makes the non-string
case re-serialize to a string first, so the function is modelled on the
string it hashes). -/
def verifySignature (hmacHex : String → String → String)
    (payload : String) (signature : String) (secret : String) : Bool :=
  if ¬ strStartsWith signature "sha256=" then
    false
  else
    let digest := "sha256=" ++ hmacHex secret payload
    if digest.length ≠ signature.length then
      false
    else
      digest = signature

/-- Toy HMAC used to instantiate the abstract digest function in witnesses:
the digest of a message under a secret is the secret, a separator and the
message. -/
def tagHmac (secret message : String) : String :=
  secret ++ "|" ++ message

/-! ## Build queue scheduling (claim C4)

BuildEngine.queueBuild / processQueue, build-engine.ts lines 103-175.  The
node event loop runs every stretch of code between awaits atomically, so the
engine is modelled as a transition system whose steps are those stretches:
enqueueing (push plus the synchronous head of processQueue when the engine
was idle), the return or throw of processBuild (which schedules the
setTimeout continuation), and the firing of that continuation.  Builds are
identified by numbers; the ghost field enqueued records every build ever
enqueued, in order. -/

/-- State of the build engine scheduler.  running lists the builds currently
inside processBuild — kept as a list precisely so that the absence of
overlap is a theorem rather than a modelling assumption — and started is the
log of builds in the order they began executing. -/
structure EngineState where
  buildQueue : List Nat
  isProcessing : Bool
  running : List Nat
  started : List Nat
  pendingTimeouts : Nat
  enqueued : List Nat
deriving DecidableEq, Repr

/-- Engine state at construction time: empty queue, idle. -/
def initEngine : EngineState :=
  { buildQueue := []
    isProcessing := false
    running := []
    started := []
    pendingTimeouts := 0
    enqueued := [] }

/-- Synchronous head of processQueue (lines 133-145): on an empty queue the
engine goes idle; otherwise the head is dequeued and enters processBuild. -/
def processQueueSync (s : EngineState) : EngineState :=
  match s.buildQueue with
  | [] => { s with isProcessing := false }
  | e :: rest =>
    { s with
        isProcessing := true
        buildQueue := rest
        running := s.running ++ [e]
        started := s.started ++ [e] }

/-- Atomic effect of queueBuild (lines 103-128): push the event, then start
processQueue only when the engine is not already processing. -/
def queueBuildStep (e : Nat) (s : EngineState) : EngineState :=
  let s1 := { s with buildQueue := s.buildQueue ++ [e], enqueued := s.enqueued ++ [e] }
  if s1.isProcessing then s1 else processQueueSync s1

/-- Atomic effect of processBuild returning or throwing for build e: the
build leaves running and the setTimeout continuation of line 174 is
scheduled. -/
def finishBuildStep (e : Nat) (s : EngineState) : EngineState :=
  { s with running := s.running.erase e, pendingTimeouts := s.pendingTimeouts + 1 }

/-- Atomic effect of a scheduled setTimeout continuation firing: it runs the
synchronous head of processQueue. -/
def timeoutFireStep (s : EngineState) : EngineState :=
  processQueueSync { s with pendingTimeouts := s.pendingTimeouts - 1 }

/-- One event-loop step of the build engine. -/
inductive EngineStep : EngineState → EngineState → Prop
  | enqueue (e : Nat) (s : EngineState) : EngineStep s (queueBuildStep e s)
  | finish (e : Nat) (s : EngineState) (h : e ∈ s.running) :
      EngineStep s (finishBuildStep e s)
  | timerFire (s : EngineState) (h : 0 < s.pendingTimeouts) :
      EngineStep s (timeoutFireStep s)

/-- Engine states reachable from construction. -/
inductive EngineReach : EngineState → Prop
  | init : EngineReach initEngine
  | step {s t : EngineState} : EngineReach s → EngineStep s t → EngineReach t

/-- Inductive invariant of the scheduler: at most one activity (a running
build or a scheduled continuation) exists, an idle engine has neither, and
the builds that began execution followed by the queued ones are exactly the
enqueued ones in order. -/
def EngineInv (s : EngineState) : Prop :=
  s.running.length + s.pendingTimeouts ≤ 1 ∧
  (s.isProcessing = false → s.running = [] ∧ s.pendingTimeouts = 0) ∧
  s.enqueued = s.started ++ s.buildQueue

/-! ## Repository file access (claim C5)

GitOperations.getFileContent and listFiles, git-operations.ts lines 245-306.
The node path.join of the source is modelled segment-wise on POSIX relative
paths: the arguments are joined on slashes and the result normalized, with
"." and empty segments dropped and ".." popping the previous segment. -/

/-- Character-level split, the behaviour of String.prototype.split on a
one-character separator. -/
def splitOnChar (c : Char) : List Char → List (List Char)
  | [] => [[]]
  | x :: xs =>
    if x = c then [] :: splitOnChar c xs
    else
      match splitOnChar c xs with
      | [] => [[x]]
      | s :: ss => (x :: s) :: ss

/-- Concatenation of strings with a separator between them. -/
def joinWith (sep : String) : List String → String
  | [] => ""
  | [s] => s
  | s :: rest => s ++ sep ++ joinWith sep rest

/-- Slash-separated segments of a path string. -/
def pathSegs (s : String) : List String :=
  (splitOnChar '/' s.data).map (fun l => String.mk l)

/-- One segment of path normalization over a reversed segment stack:
empty and dot segments vanish, dot-dot pops the previous real segment. -/
def normStep (stack : List String) (seg : String) : List String :=
  if seg = "" ∨ seg = "." then stack
  else if seg = ".." then
    match stack with
    | [] => [".."]
    | top :: rest => if top = ".." then seg :: stack else rest
  else seg :: stack

/-- Normalized segment list of a relative path. -/
def normalizeSegs (segs : List String) : List String :=
  (segs.foldl normStep []).reverse

/-- Model of node path.join on relative POSIX paths: non-empty parts joined
on slashes, then normalized; an empty result is the current directory. -/
def nodeJoin (parts : List String) : String :=
  let joined := joinWith "/" (parts.filter (fun p => p ≠ ""))
  match normalizeSegs (pathSegs joined) with
  | [] => "."
  | ns => joinWith "/" ns

/-- GitOperations.getRepositoryPath: path.join of the data directory (its
default "./data"), "git" and the stack id. -/
def getRepositoryPath (stackId : String) : String :=
  nodeJoin ["./data", "git", stackId]

/-- Containment of a resolved path in a root directory: the root itself or
anything below it. -/
def isWithin (root p : String) : Bool :=
  p = root ∨ strStartsWith p (root ++ "/")

/-- Filesystem path read by GitOperations.getFileContent for a repository
and a requested file path, or none when the source rejects the request: the
resolved path is accepted exactly when it has the repository path as a
string prefix (git-operations.ts lines 254-263). -/
def getFileContentAccess (stackId filePath : String) : Option String :=
  let repoPath := getRepositoryPath stackId
  let fullPath := nodeJoin [repoPath, filePath]
  if strStartsWith fullPath repoPath then some fullPath else Option.none

/-- Filesystem path listed by GitOperations.listFiles for a repository and a
requested directory, or none when rejected, with the same string-prefix gate
(git-operations.ts lines 286-296). -/
def listFilesAccess (stackId directory : String) : Option String :=
  let repoPath := getRepositoryPath stackId
  let dirPath := nodeJoin [repoPath, directory]
  if strStartsWith dirPath repoPath then some dirPath else Option.none

/-! ## External process invocation (claim C6)

Option objects passed to the promisified child_process.exec by
BuildEngine.processBuild (build-engine.ts lines 285, 315 and 445): only the
working directory is set.  The node exec semantics are modelled over the
duration of the launched process: with a timeout option the process is
killed at the timeout, without one a non-terminating process never
returns. -/

/-- Options object of a child_process.exec call, with the node timeout
option (absent means no limit). -/
structure ExecOptions where
  cwd : Option String := Option.none
  timeoutMs : Option Nat := Option.none
deriving DecidableEq, Repr

/-- Options object the build engine passes at each of its exec call sites:
the literal context object with only cwd set. -/
def buildEngineExecOptions (repoPath : String) : ExecOptions :=
  { cwd := some repoPath }

/-- Outcome of awaiting an exec call. -/
inductive ExecOutcome
  | completed (t : Nat)
  | killedTimeout (t : Nat)
  | neverReturns
deriving DecidableEq, Repr

/-- Node exec semantics as a function of the options and of the time the
external process takes (none for a process that never terminates). -/
def execSemantics (opts : ExecOptions) (processDuration : Option Nat) : ExecOutcome :=
  match opts.timeoutMs, processDuration with
  | some t, some d => if d ≤ t then ExecOutcome.completed d else ExecOutcome.killedTimeout t
  | some t, Option.none => ExecOutcome.killedTimeout t
  | Option.none, some d => ExecOutcome.completed d
  | Option.none, Option.none => ExecOutcome.neverReturns

/-! ## Persisting repository credentials (claim C9)

GitRepository.save, git-repository.ts (concatenated into
backend/models/build-config.ts, lines 311-348).  The secret-sealing
primitive encryptText is abstracted as a function seal; JSON.stringify on a
GitCredentials object is modelled with its fields in declaration order,
undefined fields omitted. -/

/-- JSON rendering of one string field. -/
def jsonStrField (k v : String) : String :=
  "\x22" ++ k ++ "\x22:\x22" ++ v ++ "\x22"

/-- Fields JSON.stringify emits for a GitCredentials object. -/
def credsJsonFields (c : GitCredentials) : List String :=
  (match c.username with | some v => [jsonStrField "username" v] | Option.none => []) ++
  (match c.token with | some v => [jsonStrField "token" v] | Option.none => []) ++
  (match c.privateKey with | some v => [jsonStrField "privateKey" v] | Option.none => []) ++
  (match c.passphrase with | some v => [jsonStrField "passphrase" v] | Option.none => [])

/-- JSON.stringify of a GitCredentials object. -/
def credsToJson (c : GitCredentials) : String :=
  "\x7b" ++ joinWith "," (credsJsonFields c) ++ "\x7d"

/-- Database row written by GitRepository.save. -/
structure GitRepositoryBean where
  stack_id : String
  url : String
  branch : String
  auth_type : GitAuthType
  provider : GitProvider
  webhook_secret : Option String
  credentials_json : Option String
deriving DecidableEq, Repr

/-- Shallow embedding of GitRepository.save: every scalar field is copied to
the bean, and credentials_json is the sealed credentials JSON when an
in-memory credentials object exists and null otherwise.  The auth type is
copied but never consulted for the credentials column. -/
def gitRepositorySave (sealText : String → String) (repo : GitRepository) : GitRepositoryBean :=
  { stack_id := repo.stackId
    url := repo.url
    branch := repo.branch
    auth_type := repo.authType
    provider := repo.provider
    webhook_secret := repo.webhookSecret
    credentials_json :=
      match repo.credentials with
      | some c => some (sealText (credsToJson c))
      | Option.none => Option.none }

/-- Toy sealing function used to instantiate the abstract vault in closed
statements. -/
def toySeal (s : String) : String :=
  "sealed:" ++ s

/-! ## Credential vault round trip (claim C10)

encryptText / decryptText, backend/utils/crypto.ts (src/unnamed/part_003
lines 30-91).  The AES-256-GCM primitive of node crypto is the external
collaborator: it is abstracted as a cipher with encryption, tag and
decryption functions over byte lists.  The code under verification is the
framing: hex-encoding the iv, tag and ciphertext, joining them on colons,
and splitting and decoding them again. -/

/-- Bytes as produced by node Buffers. -/
abbrev Byte := Fin 256

/-- Lower-case hex digit of a value below sixteen. -/
def hexDigitChar (n : Nat) : Char :=
  if n < 10 then Char.ofNat (48 + n) else Char.ofNat (87 + n)

/-- Numeric value of a lower-case hex digit, zero on other characters. -/
def hexVal (c : Char) : Nat :=
  if 48 ≤ c.toNat ∧ c.toNat ≤ 57 then c.toNat - 48
  else if 97 ≤ c.toNat ∧ c.toNat ≤ 102 then c.toNat - 87
  else 0

/-- Hex characters of a byte list, two per byte. -/
def hexBytesChars : List Byte → List Char
  | [] => []
  | b :: bs => hexDigitChar (b.val / 16) :: hexDigitChar (b.val % 16) :: hexBytesChars bs

/-- Buffer.toString with hex encoding. -/
def hexToString (bs : List Byte) : String :=
  String.mk (hexBytesChars bs)

/-- Byte encoded by a pair of hex characters. -/
def decodeHexPair (c1 c2 : Char) : Byte :=
  ⟨(hexVal c1 % 16) * 16 + hexVal c2 % 16, by omega⟩

/-- Buffer.from with hex decoding, reading characters pairwise. -/
def unhexBytes : List Char → List Byte
  | c1 :: c2 :: cs => decodeHexPair c1 c2 :: unhexBytes cs
  | _ => []

/-- Abstract AES-256-GCM primitive: encryption and authentication tag of a
plaintext under a key and iv, and decryption of a ciphertext checked against
a tag, none on failure. -/
structure GcmCipher where
  enc : List Byte → List Byte → String → List Byte
  tag : List Byte → List Byte → String → List Byte
  dec : List Byte → List Byte → List Byte → List Byte → Option String

/-- Shallow embedding of encryptText: iv, auth tag and ciphertext as hex,
joined on colons.  The iv, freshly random in the source, is a parameter. -/
def encryptText (M : GcmCipher) (key iv : List Byte) (text : String) : String :=
  hexToString iv ++ ":" ++ hexToString (M.tag key iv text) ++ ":" ++
    hexToString (M.enc key iv text)

/-- Shallow embedding of decryptText: split on colons, require exactly three
parts, hex-decode them and hand them to the cipher; any failure (the throw
of the source) is none. -/
def decryptText (M : GcmCipher) (key : List Byte) (encryptedText : String) : Option String :=
  match splitOnChar ':' encryptedText.data with
  | [ivHex, tagHex, dataHex] =>
    M.dec key (unhexBytes ivHex) (unhexBytes tagHex) (unhexBytes dataHex)
  | _ => Option.none

/-- Degenerate cipher used to instantiate the abstract primitive in closed
statements. -/
def toyGcm : GcmCipher :=
  { enc := fun _ _ _ => [⟨171, by omega⟩, ⟨0, by omega⟩, ⟨255, by omega⟩]
    tag := fun _ _ _ => [⟨16, by omega⟩]
    dec := fun _ _ _ _ => some "hi" }

/-- Concrete metadata function used to exercise the webhook endpoint in
closed statements: an unverified push on branch b. -/
def stubParse (b : String) : Option String → WebhookPayloadMetadata :=
  fun _ => { eventType := "push", branch := some b, commit := some "abc123", verified := false }

/-- Concrete repository used in closed statements. -/
def cexRepo : GitRepository :=
  { id := 1
    stackId := "app"
    url := "https://example.com/r.git"
    branch := "main"
    authType := GitAuthType.none
    credentials := Option.none
    webhookSecret := Option.none
    provider := GitProvider.generic }

/-- Concrete build configuration without rollback concerns, compose-only. -/
def cexConfig : BuildConfig :=
  { stackId := "app"
    buildType := "compose-only"
    dockerfilePath := "Dockerfile"
    composeFilePath := "docker-compose.yml" }

/-- Concrete build configuration with rollbackOnFailure set and a
docker build. -/
def cexConfigRollback : BuildConfig :=
  { stackId := "app"
    buildType := "docker-build"
    dockerfilePath := "Dockerfile"
    composeFilePath := "docker-compose.yml"
    rollbackOnFailure := true }

/-- Concrete environment in which every phase succeeds until the stack
deployment, which fails. -/
def cexEnvDeployFail : BuildEnv :=
  { repoLookup := some cexRepo
    configLookup := some cexConfig
    repoDirExists := true
    pullOk := true
    cloneResult := true
    currentCommitBranch := some "main"
    checkoutOk := true
    preBuildOk := true
    dockerfileExists := true
    dockerBuildOk := true
    postBuildOk := true
    composeFileContent := some "services: x"
    stackDeployOk := false }

/-- Concrete environment in which every phase succeeds. -/
def cexEnvAllOk : BuildEnv :=
  { cexEnvDeployFail with stackDeployOk := true }

/-- Concrete environment whose docker build phase fails, under a
configuration with rollbackOnFailure set. -/
def cexEnvBuildFail : BuildEnv :=
  { cexEnvDeployFail with
      configLookup := some cexConfigRollback
      dockerBuildOk := false }

/-- Concrete webhook event being processed in closed statements. -/
def cexEvent : WebhookEvent :=
  { repositoryId := 1
    eventType := "push"
    branch := "main"
    commit := "abc123"
    status := EventStatus.requested
    buildId := "B1" }

/-- Concrete prior deployment history holding a successful deployment for
the same repository. -/
def cexPriorDeployments : List Deployment :=
  [{ repositoryId := 1, status := DeploymentStatus.succeeded, logs := "" }]

/-- Concrete repository whose auth kind is none while a credentials object
is still attached in memory. -/
def cexRepoAuthNone : GitRepository :=
  { id := 2
    stackId := "s2"
    url := "https://example.com/r2.git"
    branch := "main"
    authType := GitAuthType.none
    credentials := some { token := some "tok" }
    webhookSecret := Option.none
    provider := GitProvider.github }

/-! ## Theorems -/

theorem bitbucketParse_verified_eq (payload : BitbucketPayload) (headers : Headers)
    (secret : Option String) :
    (bitbucketParseWebhookPayload payload headers secret).verified =
      (jsTruthy (getHeader headers "x-request-uuid") &&
        jsTruthy (getHeader headers "x-hook-uuid")) := by
  unfold bitbucketParseWebhookPayload
  dsimp only
  by_cases h : jsTruthy (getHeader headers "x-request-uuid") = true ∧
      jsTruthy (getHeader headers "x-hook-uuid") = true
  · have hb : (jsTruthy (getHeader headers "x-request-uuid") &&
        jsTruthy (getHeader headers "x-hook-uuid")) = true := by
      rw [h.1, h.2]
      rfl
    rw [if_pos h, hb]
    repeat
      first
        | rfl
        | split
  · have hb : (jsTruthy (getHeader headers "x-request-uuid") &&
        jsTruthy (getHeader headers "x-hook-uuid")) = false := by
      rcases hx : jsTruthy (getHeader headers "x-request-uuid") <;>
        rcases hy : jsTruthy (getHeader headers "x-hook-uuid") <;> simp_all
    rw [if_neg h, hb]
    repeat
      first
        | rfl
        | split

/-- C8: for the Bitbucket provider, the parsed event is verified exactly when
the x-request-uuid and x-hook-uuid delivery headers are both supplied
(non-empty), and the verified flag does not depend on the configured secret
in any way — no cryptographic check is performed. -/
theorem bitbucket_verification_headers_only (payload : BitbucketPayload)
    (headers : Headers) (secret s1 s2 : Option String) :
    ((bitbucketParseWebhookPayload payload headers secret).verified = true ↔
      (jsTruthy (getHeader headers "x-request-uuid") = true ∧
        jsTruthy (getHeader headers "x-hook-uuid") = true)) ∧
    (bitbucketParseWebhookPayload payload headers s1).verified =
      (bitbucketParseWebhookPayload payload headers s2).verified := by
  constructor
  · rw [bitbucketParse_verified_eq]
    simp
  · rw [bitbucketParse_verified_eq, bitbucketParse_verified_eq]

theorem bitbucket_verification_headers_only_witness :
    (bitbucketParseWebhookPayload { pushChanges := Option.none }
      [("x-request-uuid", "a"), ("x-hook-uuid", "b")] (some "s")).verified = true :=
  (bitbucket_verification_headers_only { pushChanges := Option.none }
    [("x-request-uuid", "a"), ("x-hook-uuid", "b")] (some "s") (some "s")
    Option.none).1.mpr ⟨by decide, by decide⟩

/-- C7: response statuses of the webhook endpoint: 404 when the repository id
resolves to nothing, 400 when the configured provider differs from the
route's provider, 401 when a webhook secret is configured and provider
verification fails, and 200 otherwise. -/
theorem processWebhook_statuses (repoLookup : Option GitRepository)
    (routeProvider : GitProvider) (parse : Option String → WebhookPayloadMetadata)
    (buildId : String) :
    (repoLookup = Option.none →
      (processWebhook repoLookup routeProvider parse buildId).status = 404) ∧
    (∀ repo, repoLookup = some repo → repo.provider ≠ routeProvider →
      (processWebhook repoLookup routeProvider parse buildId).status = 400) ∧
    (∀ repo, repoLookup = some repo → repo.provider = routeProvider →
      jsTruthy repo.webhookSecret = true →
      (parse repo.webhookSecret).verified = false →
      (processWebhook repoLookup routeProvider parse buildId).status = 401) ∧
    (∀ repo, repoLookup = some repo → repo.provider = routeProvider →
      ¬ (jsTruthy repo.webhookSecret = true ∧
          (parse repo.webhookSecret).verified = false) →
      (processWebhook repoLookup routeProvider parse buildId).status = 200) := by
  refine ⟨?_, ?_, ?_, ?_⟩
  · intro h
    subst h
    rfl
  · intro repo h hp
    subst h
    simp [processWebhook, hp]
  · intro repo h hp hs hv
    subst h
    simp [processWebhook, hp, hs, hv]
  · intro repo h hp hnot
    subst h
    simp only [processWebhook]
    rw [if_neg (by simp [hp]), if_neg hnot]
    split <;> rfl

theorem processWebhook_statuses_witness :
    (processWebhook Option.none GitProvider.github (stubParse "main") "B1").status = 404 ∧
    (processWebhook (some cexRepo) GitProvider.github (stubParse "main") "B1").status = 400 ∧
    (processWebhook (some cexRepo) GitProvider.generic (stubParse "main") "B1").status = 200 := by
  refine ⟨?_, ?_, ?_⟩
  · exact (processWebhook_statuses Option.none GitProvider.github (stubParse "main") "B1").1 rfl
  · exact (processWebhook_statuses (some cexRepo) GitProvider.github (stubParse "main")
      "B1").2.1 cexRepo rfl (by decide)
  · exact (processWebhook_statuses (some cexRepo) GitProvider.generic (stubParse "main")
      "B1").2.2.2 cexRepo rfl rfl (by decide)

theorem processWebhook_savedEvents_triggered (repoLookup : Option GitRepository)
    (routeProvider : GitProvider) (parse : Option String → WebhookPayloadMetadata)
    (buildId : String) :
    (processWebhook repoLookup routeProvider parse buildId).savedEvents.length =
      (if (processWebhook repoLookup routeProvider parse buildId).buildTriggered
        then 1 else 0) := by
  cases repoLookup <;> unfold processWebhook <;> dsimp only
  · rfl
  · repeat' split
    all_goals simp_all

theorem processBuild_deployment_of_error (env : BuildEnv) (event : WebhookEvent) :
    ((processBuild env event).error.isSome →
      (processBuild env event).deployment =
        { repositoryId := event.repositoryId
          status := DeploymentStatus.inProgress
          logs := "" }) ∧
    ((processBuild env event).error = Option.none →
      (processBuild env event).deployment.status = DeploymentStatus.succeeded) := by
  unfold processBuild
  cases env.repoLookup <;> dsimp only
  · simp
  · cases env.configLookup <;> dsimp only
    · simp
    · repeat' split
      all_goals simp

theorem processQueueStep_shape (env : BuildEnv) (event : WebhookEvent) :
    ((processBuild env event).error = Option.none →
      (processQueueStep env event).deployments = [(processBuild env event).deployment]) ∧
    (∀ e, (processBuild env event).error = some e →
      (processQueueStep env event).deployments =
        [(processBuild env event).deployment,
         { repositoryId := event.repositoryId
           status := DeploymentStatus.failed
           logs := "Build failed: " ++ e }]) ∧
    (processQueueStep env event).deployedComposeTexts =
      (processBuild env event).deployedComposeTexts := by
  unfold processQueueStep
  rcases h : (processBuild env event).error with _ | e <;> simp [h]

/-- C3 is false on the code: an accepted webhook whose build fails leads to
two persisted Deployment rows (the in-progress row created by processBuild
and the failed row created by the catch of processQueue), so at the
concrete accepted request below, status 200 does not imply at most one
Deployment. -/
theorem webhook_single_deployment_cex :
    ¬ ((webhookPipeline (some cexRepo) GitProvider.generic (stubParse "main") "B1"
          cexEnvDeployFail).status = 200 →
        (webhookPipeline (some cexRepo) GitProvider.generic (stubParse "main") "B1"
          cexEnvDeployFail).webhookEventCount = 1 ∧
        (webhookPipeline (some cexRepo) GitProvider.generic (stubParse "main") "B1"
          cexEnvDeployFail).deployments.length ≤ 1) := by
  decide

/-- C3 (amended): an accepted webhook that passes branch filtering persists
exactly one WebhookEvent, and the processing of its build creates exactly
one Deployment row when every phase succeeds and exactly two Deployment
rows when a phase fails; an accepted but branch-filtered request persists
zero WebhookEvents and zero Deployments. -/
theorem webhook_event_and_deployment_counts (repoLookup : Option GitRepository)
    (routeProvider : GitProvider) (parse : Option String → WebhookPayloadMetadata)
    (buildId : String) (env : BuildEnv) :
    ((processWebhook repoLookup routeProvider parse buildId).buildTriggered = false →
      (webhookPipeline repoLookup routeProvider parse buildId env).webhookEventCount = 0 ∧
      (webhookPipeline repoLookup routeProvider parse buildId env).deployments = []) ∧
    ((processWebhook repoLookup routeProvider parse buildId).buildTriggered = true →
      (webhookPipeline repoLookup routeProvider parse buildId env).webhookEventCount = 1 ∧
      ∀ e, (processWebhook repoLookup routeProvider parse buildId).savedEvents = [e] →
        (webhookPipeline repoLookup routeProvider parse buildId env).deployments.length =
          (if (processBuild env e).error.isSome then 2 else 1)) := by
  have hlen := processWebhook_savedEvents_triggered repoLookup routeProvider parse buildId
  constructor
  · intro ht
    rw [ht] at hlen
    simp only [Bool.false_eq_true, if_false] at hlen
    have hnil : (processWebhook repoLookup routeProvider parse buildId).savedEvents = [] :=
      List.length_eq_zero.mp hlen
    simp only [webhookPipeline]
    rw [hnil]
    simp
  · intro ht
    rw [ht] at hlen
    simp only [if_true] at hlen
    constructor
    · obtain ⟨e, he⟩ := List.length_eq_one.mp hlen
      simp only [webhookPipeline]
      rw [he]
      simp [ht]
    · intro e2 he2
      simp only [webhookPipeline]
      rw [he2, ht]
      simp only [if_true]
      rcases h : (processBuild env e2).error with _ | msg <;>
        simp [processQueueStep, h]

theorem webhook_event_and_deployment_counts_witness :
    (webhookPipeline (some cexRepo) GitProvider.generic (stubParse "dev") "B1"
        cexEnvAllOk).webhookEventCount = 0 ∧
    (webhookPipeline (some cexRepo) GitProvider.generic (stubParse "dev") "B1"
        cexEnvAllOk).deployments = [] ∧
    (webhookPipeline (some cexRepo) GitProvider.generic (stubParse "main") "B1"
        cexEnvAllOk).webhookEventCount = 1 := by
  refine ⟨?_, ?_, ?_⟩
  · exact ((webhook_event_and_deployment_counts (some cexRepo) GitProvider.generic
      (stubParse "dev") "B1" cexEnvAllOk).1 (by decide)).1
  · exact ((webhook_event_and_deployment_counts (some cexRepo) GitProvider.generic
      (stubParse "dev") "B1" cexEnvAllOk).1 (by decide)).2
  · exact ((webhook_event_and_deployment_counts (some cexRepo) GitProvider.generic
      (stubParse "main") "B1" cexEnvAllOk).2 (by decide)).1

/-- C1 is false on the code: at a concrete failing build under a
configuration with rollbackOnFailure set and with a prior successful
Deployment for the same repository on record, no Deployment row ends up
rolled back, and no further compose text is handed to the stack runtime
after the failure (the Deployment Executor is never invoked to redeploy
the prior artifact). -/
theorem rollback_never_invoked_cex :
    ¬ ((cexConfigRollback.rollbackOnFailure = true ∧
        (∃ p ∈ cexPriorDeployments,
          p.status = DeploymentStatus.succeeded ∧ p.repositoryId = cexEvent.repositoryId) ∧
        (processBuild cexEnvBuildFail cexEvent).error.isSome = true) →
       ((∃ d ∈ (processQueueStep cexEnvBuildFail cexEvent).deployments,
           d.status = DeploymentStatus.rolledBack) ∨
        (processQueueStep cexEnvBuildFail cexEvent).deployedComposeTexts ≠
          (processBuild cexEnvBuildFail cexEvent).deployedComposeTexts)) := by
  decide

/-- C1 (amended): for every build whose processing fails, the build engine
persists the initially created Deployment row still in progress together
with a second row whose status is failed and whose logs record the error;
no Deployment row ever gets status rolled_back and the failure handling
performs no further stack deployment, independently of rollbackOnFailure
and of any prior successful Deployment. -/
theorem build_failure_leaves_failed_no_rollback (env : BuildEnv) (event : WebhookEvent)
    (e : String) (herr : (processBuild env event).error = some e) :
    (processQueueStep env event).deployments =
      [{ repositoryId := event.repositoryId
         status := DeploymentStatus.inProgress
         logs := "" },
       { repositoryId := event.repositoryId
         status := DeploymentStatus.failed
         logs := "Build failed: " ++ e }] ∧
    (∀ d ∈ (processQueueStep env event).deployments,
      d.status ≠ DeploymentStatus.rolledBack) ∧
    (processQueueStep env event).deployedComposeTexts =
      (processBuild env event).deployedComposeTexts := by
  have hd := (processBuild_deployment_of_error env event).1 (by rw [herr]; rfl)
  have hs := (processQueueStep_shape env event).2.1 e herr
  rw [hd] at hs
  refine ⟨hs, ?_, (processQueueStep_shape env event).2.2⟩
  intro d hdmem
  rw [hs] at hdmem
  simp only [List.mem_cons, List.not_mem_nil, or_false] at hdmem
  rcases hdmem with rfl | rfl <;> simp

theorem build_failure_leaves_failed_no_rollback_witness :
    (processQueueStep cexEnvBuildFail cexEvent).deployments =
      [{ repositoryId := 1
         status := DeploymentStatus.inProgress
         logs := "" },
       { repositoryId := 1
         status := DeploymentStatus.failed
         logs := "Build failed: Docker build failed" }] :=
  (build_failure_leaves_failed_no_rollback cexEnvBuildFail cexEvent
    "Docker build failed" (by decide)).1

/-- C6 is false on the code: the build engine passes no timeout option to
its external process invocations, so at the default configured timeout of
3600 seconds an external command that never terminates yields an exec call
that never returns instead of failing with a TimeoutError at or after the
timeout. -/
theorem timeout_not_enforced_cex :
    ¬ ((∀ d, (Option.none : Option Nat) = some d → cexConfig.timeout * 1000 < d) →
       ∃ t, execSemantics (buildEngineExecOptions (getRepositoryPath "app")) Option.none =
           ExecOutcome.killedTimeout t ∧ cexConfig.timeout * 1000 ≤ t) := by
  intro h
  obtain ⟨t, ht, _⟩ := h (fun d hd => by cases hd)
  simp [execSemantics, buildEngineExecOptions] at ht

/-- C6 (amended): the options object the build engine passes to every
external process invocation carries no timeout, and under the exec
semantics the call completes exactly when the process terminates by itself
and never returns otherwise; in particular no invocation ever ends in a
timeout kill, whatever the configured BuildConfig timeout. -/
theorem exec_timeout_never_enforced (repoPath : String) (dur : Option Nat) :
    (buildEngineExecOptions repoPath).timeoutMs = Option.none ∧
    execSemantics (buildEngineExecOptions repoPath) dur =
      (match dur with
        | some d => ExecOutcome.completed d
        | Option.none => ExecOutcome.neverReturns) ∧
    (∀ t, execSemantics (buildEngineExecOptions repoPath) dur ≠
      ExecOutcome.killedTimeout t) := by
  refine ⟨rfl, ?_, ?_⟩ <;> cases dur <;> simp [execSemantics, buildEngineExecOptions]

theorem exec_timeout_never_enforced_witness :
    execSemantics (buildEngineExecOptions "data/git/repos/1") Option.none ≠
      ExecOutcome.killedTimeout 3600000 :=
  (exec_timeout_never_enforced "data/git/repos/1" Option.none).2.2 3600000

/-- C9 is false on the code: GitRepository.save decides the persisted
credentials column from the in-memory credentials object alone, so a
repository whose authKind is none but which still carries a credentials
object persists the sealed blob rather than null. -/
theorem credentials_not_null_on_authkind_none_cex :
    ¬ (cexRepoAuthNone.authType = GitAuthType.none →
        (gitRepositorySave toySeal cexRepoAuthNone).credentials_json = Option.none) := by
  decide

/-- C9 (amended): the credentials column persisted by GitRepository.save is
never the plaintext credentials: it is exactly the sealed credentials JSON
whenever an in-memory credentials object is present, and it is null exactly
when no credentials object is attached; the auth kind is not consulted, so
authKind none yields null only when the credentials object is also
absent. -/
theorem save_persists_sealed_credentials (sealText : String → String)
    (repo : GitRepository) :
    (repo.credentials = Option.none →
      (gitRepositorySave sealText repo).credentials_json = Option.none) ∧
    (∀ c, repo.credentials = some c →
      (gitRepositorySave sealText repo).credentials_json =
        some (sealText (credsToJson c))) ∧
    (∀ s, (gitRepositorySave sealText repo).credentials_json = some s →
      ∃ c, repo.credentials = some c ∧ s = sealText (credsToJson c)) := by
  unfold gitRepositorySave
  rcases h : repo.credentials with _ | c <;> simp [h]

theorem save_persists_sealed_credentials_witness :
    (gitRepositorySave toySeal cexRepo).credentials_json = Option.none ∧
    (gitRepositorySave toySeal cexRepoAuthNone).credentials_json =
      some (toySeal (credsToJson { token := some "tok" })) := by
  constructor
  · exact (save_persists_sealed_credentials toySeal cexRepo).1 rfl
  · exact (save_persists_sealed_credentials toySeal cexRepoAuthNone).2.1
      { token := some "tok" } rfl

/-- C5 is false on the code: the traversal gate of getFileContent is a plain
string-prefix test on the joined path, so for the repository of stack "app"
the request "../app2/secret" resolves to the sibling directory
data/git/app2 — outside the repository root — yet passes the gate and is
read. -/
theorem path_traversal_gate_cex :
    ¬ (isWithin (getRepositoryPath "app")
          (nodeJoin [getRepositoryPath "app", "../app2/secret"]) = false →
        getFileContentAccess "app" "../app2/secret" = Option.none) := by
  decide

/-- C5 (amended): getFileContent and listFiles reject a request exactly when
the normalized joined path does not carry the repository path as a string
prefix, and every accepted request reads a path carrying that string
prefix; traversals that leave the prefix — such as ../../etc/passwd — are
rejected, but an escape into a sibling directory whose name extends the
repository directory name as a string is not. -/
theorem path_gate_characterization (stackId p : String) :
    (getFileContentAccess stackId p = Option.none ↔
      strStartsWith (nodeJoin [getRepositoryPath stackId, p])
        (getRepositoryPath stackId) = false) ∧
    (∀ q, getFileContentAccess stackId p = some q →
      q = nodeJoin [getRepositoryPath stackId, p] ∧
      strStartsWith q (getRepositoryPath stackId) = true) ∧
    (listFilesAccess stackId p = Option.none ↔
      strStartsWith (nodeJoin [getRepositoryPath stackId, p])
        (getRepositoryPath stackId) = false) ∧
    (∀ q, listFilesAccess stackId p = some q →
      q = nodeJoin [getRepositoryPath stackId, p] ∧
      strStartsWith q (getRepositoryPath stackId) = true) := by
  unfold getFileContentAccess listFilesAccess
  dsimp only
  rcases h : strStartsWith (nodeJoin [getRepositoryPath stackId, p])
      (getRepositoryPath stackId) <;> simp [h]

theorem path_gate_characterization_witness :
    getFileContentAccess "app" "../../etc/passwd" = Option.none ∧
    listFilesAccess "app" "../.." = Option.none := by
  constructor
  · exact (path_gate_characterization "app" "../../etc/passwd").1.mpr (by decide)
  · exact (path_gate_characterization "app" "../..").2.2.1.mpr (by decide)

theorem strStartsWith_append (p x : String) : strStartsWith (p ++ x) p = true := by
  unfold strStartsWith
  rw [String.data_append, List.isPrefixOf_iff_prefix]
  exact List.prefix_append p.data x.data

theorem string_append_left_cancel {a b c : String} (h : a ++ b = a ++ c) : b = c := by
  have h1 := congrArg String.data h
  rw [String.data_append, String.data_append] at h1
  have h2 := List.append_cancel_left h1
  cases b
  cases c
  exact congrArg String.mk h2

theorem verifySignature_iff (hmacHex : String → String → String)
    (b signature secret : String) :
    verifySignature hmacHex b signature secret = true ↔
      signature = "sha256=" ++ hmacHex secret b := by
  constructor
  · intro hv
    unfold verifySignature at hv
    split at hv
    · exact absurd hv (by simp)
    · dsimp only at hv
      split at hv
      · exact absurd hv (by simp)
      · exact (of_decide_eq_true hv).symm
  · intro hsig
    subst hsig
    unfold verifySignature
    rw [if_neg (by simp [strStartsWith_append]), if_neg (by simp)]
    exact decide_eq_true rfl

/-- C2: with a configured secret, GitHub webhook verification succeeds if
and only if the X-Hub-Signature-256 header equals the string sha256=
followed by the hex HMAC-SHA256 digest of the hashed body under the secret
(the timing-safe comparison of the source is functionally this equality);
consequently a tampered body whose digest differs from the original body's
digest fails verification even when the signature matches the original
body. -/
theorem github_signature_verification (hmacHex : String → String → String)
    (body tampered signature secret : String) :
    (verifySignature hmacHex body signature secret = true ↔
      signature = "sha256=" ++ hmacHex secret body) ∧
    (hmacHex secret tampered ≠ hmacHex secret body →
      signature = "sha256=" ++ hmacHex secret body →
      verifySignature hmacHex tampered signature secret = false) := by
  refine ⟨verifySignature_iff hmacHex body signature secret, fun hne hsig => ?_⟩
  cases hvb : verifySignature hmacHex tampered signature secret
  · rfl
  · exfalso
    have h1 := (verifySignature_iff hmacHex tampered signature secret).mp hvb
    rw [hsig] at h1
    exact hne (string_append_left_cancel h1).symm

theorem github_signature_verification_witness :
    verifySignature tagHmac "tampered-body" ("sha256=" ++ tagHmac "sec" "body") "sec"
      = false :=
  (github_signature_verification tagHmac "body" "tampered-body"
    ("sha256=" ++ tagHmac "sec" "body") "sec").2 (by decide) rfl

theorem engineInv_init : EngineInv initEngine := by
  refine ⟨?_, ?_, ?_⟩ <;> simp [initEngine]

theorem engineInv_processQueueSync (s : EngineState)
    (hrun : s.running = []) (hpend : s.pendingTimeouts = 0)
    (hfifo : s.enqueued = s.started ++ s.buildQueue) :
    EngineInv (processQueueSync s) := by
  unfold processQueueSync
  rcases hq : s.buildQueue with _ | ⟨e, rest⟩
  · refine ⟨?_, ?_, ?_⟩ <;> simp_all
  · rw [hq] at hfifo
    refine ⟨?_, ?_, ?_⟩ <;> dsimp only
    · simp [hrun, hpend]
    · intro hcontra
      cases hcontra
    · rw [hfifo]
      simp

theorem engineInv_step {s t : EngineState} (hinv : EngineInv s) (hstep : EngineStep s t) :
    EngineInv t := by
  obtain ⟨h1, h2, h3⟩ := hinv
  cases hstep with
  | enqueue e s =>
    unfold queueBuildStep
    dsimp only
    rcases hp : s.isProcessing with _ | _
    · rw [if_neg (by simp [hp])]
      apply engineInv_processQueueSync <;> dsimp only
      · exact (h2 hp).1
      · exact (h2 hp).2
      · rw [h3, List.append_assoc]
    · rw [if_pos (by simp [hp])]
      refine ⟨h1, ?_, ?_⟩ <;> dsimp only
      · intro hfalse
        cases hfalse
      · rw [h3, List.append_assoc]
  | finish e s hmem =>
    unfold finishBuildStep
    have hlen : (s.running.erase e).length = s.running.length - 1 :=
      List.length_erase_of_mem hmem
    have hpos : 0 < s.running.length := List.length_pos.mpr (List.ne_nil_of_mem hmem)
    refine ⟨?_, ?_, h3⟩ <;> dsimp only
    · omega
    · intro hfalse
      rw [(h2 hfalse).1] at hmem
      cases hmem
  | timerFire s hpend =>
    have hrun : s.running = [] := by
      have := List.length_eq_zero.mp (by omega : s.running.length = 0)
      exact this
    apply engineInv_processQueueSync <;> dsimp only
    · exact hrun
    · omega
    · exact h3

theorem engineReach_inv {s : EngineState} (h : EngineReach s) : EngineInv s := by
  induction h with
  | init => exact engineInv_init
  | step _ hs ih => exact engineInv_step ih hs

/-- C4: in every reachable state of the build engine scheduler, at most one
build is inside processBuild (builds never overlap), and the builds that
have begun execution are exactly an initial segment, in order, of the
builds ever enqueued — execution begins in strict FIFO enqueue order. -/
theorem build_queue_fifo_no_overlap (s : EngineState) (h : EngineReach s) :
    s.running.length ≤ 1 ∧ ∃ rest, s.started ++ rest = s.enqueued := by
  obtain ⟨h1, _, h3⟩ := engineReach_inv h
  exact ⟨by omega, ⟨s.buildQueue, h3.symm⟩⟩

theorem build_queue_fifo_no_overlap_witness :
    (finishBuildStep 1 (queueBuildStep 2 (queueBuildStep 1 initEngine))).running.length ≤ 1 ∧
    ∃ rest,
      (finishBuildStep 1 (queueBuildStep 2 (queueBuildStep 1 initEngine))).started ++ rest =
        (finishBuildStep 1 (queueBuildStep 2 (queueBuildStep 1 initEngine))).enqueued :=
  build_queue_fifo_no_overlap _
    (EngineReach.step
      (EngineReach.step
        (EngineReach.step EngineReach.init (EngineStep.enqueue 1 initEngine))
        (EngineStep.enqueue 2 (queueBuildStep 1 initEngine)))
      (EngineStep.finish 1 _ (by decide)))

theorem hexDigitChar_ne_colon (n : Nat) (h : n < 16) : hexDigitChar n ≠ ':' := by
  interval_cases n <;> decide

theorem hexVal_hexDigitChar (n : Nat) (h : n < 16) : hexVal (hexDigitChar n) = n := by
  interval_cases n <;> decide

theorem colon_not_mem_hexBytesChars (bs : List Byte) : ':' ∉ hexBytesChars bs := by
  induction bs with
  | nil => simp [hexBytesChars]
  | cons b bs ih =>
    have hb := b.isLt
    have h1 : b.val / 16 < 16 := by omega
    have h2 : b.val % 16 < 16 := by omega
    simp only [hexBytesChars, List.mem_cons, not_or]
    exact ⟨fun hc => hexDigitChar_ne_colon _ h1 hc.symm,
      fun hc => hexDigitChar_ne_colon _ h2 hc.symm, ih⟩

theorem decodeHexPair_encode (b : Byte) :
    decodeHexPair (hexDigitChar (b.val / 16)) (hexDigitChar (b.val % 16)) = b := by
  have hb := b.isLt
  have h1 : b.val / 16 < 16 := by omega
  have h2 : b.val % 16 < 16 := by omega
  unfold decodeHexPair
  apply Fin.ext
  simp only [hexVal_hexDigitChar _ h1, hexVal_hexDigitChar _ h2]
  omega

theorem unhexBytes_hexBytesChars (bs : List Byte) :
    unhexBytes (hexBytesChars bs) = bs := by
  induction bs with
  | nil => rfl
  | cons b bs ih =>
    simp only [hexBytesChars, unhexBytes, decodeHexPair_encode, ih]

theorem splitOnChar_of_not_mem {c : Char} {l : List Char} (h : c ∉ l) :
    splitOnChar c l = [l] := by
  induction l with
  | nil => rfl
  | cons x xs ih =>
    have hx : ¬ x = c := fun he => h (he ▸ List.mem_cons_self x xs)
    have hxs : c ∉ xs := fun hm => h (List.mem_cons_of_mem x hm)
    unfold splitOnChar
    rw [if_neg hx, ih hxs]

theorem splitOnChar_append {c : Char} {a : List Char} (h : c ∉ a) (rest : List Char) :
    splitOnChar c (a ++ c :: rest) = a :: splitOnChar c rest := by
  induction a with
  | nil =>
    simp only [List.nil_append]
    rw [splitOnChar, if_pos rfl]
  | cons x xs ih =>
    have hx : ¬ x = c := fun he => h (he ▸ List.mem_cons_self x xs)
    have hxs : c ∉ xs := fun hm => h (List.mem_cons_of_mem x hm)
    simp only [List.cons_append]
    rw [splitOnChar, if_neg hx, ih hxs]

/-- C10: with the process-wide key initialized and unchanged between the two
calls (the shared key parameter), decrypting the result of encrypting any
text returns that text, provided the underlying AES-GCM primitive inverts
its own encryption on that input — the colon-separated hex framing of the
source is faithfully parsed back into the iv, auth tag and ciphertext that
were encoded. -/
theorem encrypt_decrypt_roundtrip (M : GcmCipher) (key iv : List Byte) (text : String)
    (hdec : M.dec key iv (M.tag key iv text) (M.enc key iv text) = some text) :
    decryptText M key (encryptText M key iv text) = some text := by
  unfold decryptText encryptText
  have hdata : (hexToString iv ++ ":" ++ hexToString (M.tag key iv text) ++ ":" ++
      hexToString (M.enc key iv text)).data =
      hexBytesChars iv ++ ':' :: (hexBytesChars (M.tag key iv text) ++ ':' ::
        hexBytesChars (M.enc key iv text)) := by
    simp [String.data_append, hexToString]
  rw [hdata, splitOnChar_append (colon_not_mem_hexBytesChars iv),
    splitOnChar_append (colon_not_mem_hexBytesChars (M.tag key iv text)),
    splitOnChar_of_not_mem (colon_not_mem_hexBytesChars (M.enc key iv text))]
  dsimp only
  rw [unhexBytes_hexBytesChars, unhexBytes_hexBytesChars, unhexBytes_hexBytesChars]
  exact hdec

theorem encrypt_decrypt_roundtrip_witness :
    decryptText toyGcm [] (encryptText toyGcm [] [(16 : Byte)] "hi") = some "hi" :=
  encrypt_decrypt_roundtrip toyGcm [] [(16 : Byte)] "hi" rfl

end DockgeSpec
